import Mathlib

/-!
Verification of the shared-ownership layer of the `chipmunk` Rust crate.

The development shallowly embeds the crate's core types:

* `RcState` models the reference-counted block behind `Handle<T>`
  (`src/handle.rs`): an `Arc<RwLock<T>>`.  A `Handle` value is a strong
  reference; a `WeakHandle` is a weak reference.  The state records the
  strong count, the weak count, the payload (destroyed payloads become
  `none`), and how many times the payload destructor has run.
* Shape property setters (`src/shape.rs`) and the `Space` membership
  operations (`src/space.rs`) are embedded over small explicit states.
  The native Chipmunk2D kernel (the external `chipmunk_sys` crate) is not
  part of this repository; native calls are modelled from the spec and
  are marked as such in their doc comments.
-/

namespace Chipmunk

/-- Model of the reference-counted block behind `Handle<T>` / `WeakHandle<T>`
(`src/handle.rs`, `Arc<RwLock<T>>` and `Weak<RwLock<T>>`):
`strong`/`weak` are the reference counts, `payload` is the contents
(`none` after destruction), and `destroyed` counts destructor runs. -/
structure RcState (T : Type) where
  strong : Nat
  weak : Nat
  payload : Option T
  destroyed : Nat
  deriving Repr, DecidableEq

/-- `impl From<T> for Handle<T>` (src/handle.rs:100-105): move the payload
into a fresh reference-counted block; strong count starts at 1. -/
def wrap {T : Type} (x : T) : RcState T :=
  { strong := 1, weak := 0, payload := some x, destroyed := 0 }

/-- `impl Clone for Handle<T>` (src/handle.rs:107-113): a clone increments
the strong count and refers to the same payload. -/
def cloneHandle {T : Type} (s : RcState T) : RcState T :=
  { s with strong := s.strong + 1 }

/-- Dropping one strong `Handle` (the `Arc` drop glue): decrement the strong
count; when the last strong reference disappears the payload destructor
runs exactly once and the payload is gone. -/
def dropHandle {T : Type} (s : RcState T) : RcState T :=
  match s.strong with
  | 0 => s
  | 1 => { s with strong := 0, payload := none, destroyed := s.destroyed + 1 }
  | n + 2 => { s with strong := n + 1 }

/-- `Handle::downgrade` (src/handle.rs:95-97): create a `WeakHandle` to the
same contents; the strong count is unaffected. -/
def downgrade {T : Type} (s : RcState T) : RcState T :=
  { s with weak := s.weak + 1 }

/-- Dropping a `WeakHandle` (the `Weak` drop glue): decrement the weak
count; never destroys the payload. -/
def dropWeak {T : Type} (s : RcState T) : RcState T :=
  { s with weak := s.weak - 1 }

/-- `WeakHandle::upgrade` (src/handle.rs:165-170, `Weak::upgrade`): `none`
when the strong count has already reached zero, otherwise a new strong
handle to the same payload. -/
def upgrade {T : Type} (s : RcState T) : Option (RcState T) :=
  match s.strong with
  | 0 => none
  | _ + 1 => some { s with strong := s.strong + 1 }

/-- Well-formedness of a reference-counted block: the payload is present
exactly while strong references remain, and the destructor has run exactly
when the payload is gone. -/
def RcWF {T : Type} (s : RcState T) : Prop :=
  (s.payload.isSome ↔ 0 < s.strong) ∧ (s.destroyed ≤ 1) ∧ (s.destroyed = 1 ↔ s.strong = 0)

theorem rcwf_wrap {T : Type} (x : T) : RcWF (wrap x) := by
  simp [RcWF, wrap]

theorem rcwf_cloneHandle {T : Type} (s : RcState T) (h : RcWF s) (hs : 0 < s.strong) :
    RcWF (cloneHandle s) := by
  obtain ⟨h1, h2, h3⟩ := h
  refine ⟨?_, h2, ?_⟩
  · simp only [cloneHandle]
    constructor
    · intro _; omega
    · intro _; exact h1.mpr hs
  · simp only [cloneHandle]
    constructor
    · intro hd; exact absurd (h3.mp hd) (by omega)
    · intro hz; omega

theorem rcwf_dropHandle {T : Type} (s : RcState T) (h : RcWF s) :
    RcWF (dropHandle s) := by
  obtain ⟨h1, h2, h3⟩ := h
  unfold dropHandle
  cases hs : s.strong with
  | zero => exact ⟨h1, h2, h3⟩
  | succ n =>
      cases n with
      | zero =>
          have hd0 : s.destroyed = 0 := by
            rcases Nat.lt_or_ge s.destroyed 1 with h | h
            · omega
            · exact absurd (h3.mp (by omega)) (by omega)
          refine ⟨by simp, by simp [hd0], by simp [hd0]⟩
      | succ m =>
          refine ⟨?_, h2, ?_⟩
          · simp only []
            constructor
            · intro _; omega
            · intro _; exact h1.mpr (by omega)
          · simp only []
            constructor
            · intro hd; exact absurd (h3.mp hd) (by omega)
            · intro hz; omega

theorem cloneHandle_iterate_wrap {T : Type} (x : T) (N : Nat) :
    cloneHandle^[N] (wrap x) =
      { strong := N + 1, weak := 0, payload := some x, destroyed := 0 } := by
  induction N with
  | zero => rfl
  | succ n ih =>
      rw [Function.iterate_succ_apply', ih]
      rfl

theorem dropHandle_of_two_le {T : Type} (s : RcState T) (h : 2 ≤ s.strong) :
    dropHandle s = { s with strong := s.strong - 1 } := by
  unfold dropHandle
  cases hs : s.strong with
  | zero => omega
  | succ n =>
      cases n with
      | zero => omega
      | succ m => simp [hs]

theorem dropHandle_iterate_lt {T : Type} (s : RcState T) (k : Nat) (h : k < s.strong) :
    dropHandle^[k] s = { s with strong := s.strong - k } := by
  induction k with
  | zero => rfl
  | succ n ih =>
      rw [Function.iterate_succ_apply', ih (by omega)]
      rw [dropHandle_of_two_le _ (by simp; omega)]
      have harith : s.strong - n - 1 = s.strong - (n + 1) := by omega
      simp [harith]

theorem dropHandle_iterate_all {T : Type} (s : RcState T) (m : Nat) (h : s.strong = m + 1) :
    dropHandle^[m + 1] s =
      { s with strong := 0, payload := none, destroyed := s.destroyed + 1 } := by
  rw [Function.iterate_succ_apply', dropHandle_iterate_lt s m (by omega)]
  unfold dropHandle
  simp [h]

/-- C1: `wrap(x)` followed by dropping the returned `Handle` destroys `x`
exactly once; with `N ≥ 1` clones, after dropping any `k ≤ N` of the `N+1`
handles the payload is still alive and the destructor has not run, and after dropping all
`N+1` handles the destructor has run exactly once. -/
theorem wrap_clone_drop_destroys_once {T : Type} (x : T) (N k : Nat)
    (hN : 1 ≤ N) (hk : k ≤ N) :
    (dropHandle (wrap x)).destroyed = 1 ∧ (dropHandle (wrap x)).payload = none
    ∧ (dropHandle^[k] (cloneHandle^[N] (wrap x))).destroyed = 0
    ∧ (dropHandle^[k] (cloneHandle^[N] (wrap x))).payload = some x
    ∧ (dropHandle^[N + 1] (cloneHandle^[N] (wrap x))).destroyed = 1
    ∧ (dropHandle^[N + 1] (cloneHandle^[N] (wrap x))).payload = none := by
  have hclone := cloneHandle_iterate_wrap x N
  have hpart := dropHandle_iterate_lt (cloneHandle^[N] (wrap x)) k (by rw [hclone]; simp; omega)
  have hall := dropHandle_iterate_all (cloneHandle^[N] (wrap x)) N (by rw [hclone])
  refine ⟨rfl, rfl, ?_, ?_, ?_, ?_⟩
  · rw [hpart, hclone]
  · rw [hpart, hclone]
  · rw [hall, hclone]
  · rw [hall, hclone]

theorem wrap_clone_drop_destroys_once_witness :
    1 ≤ 2 ∧ 1 ≤ 2 ∧
    ((dropHandle (wrap (7 : Nat))).destroyed = 1
     ∧ (dropHandle (wrap (7 : Nat))).payload = none
     ∧ (dropHandle^[1] (cloneHandle^[2] (wrap (7 : Nat)))).destroyed = 0
     ∧ (dropHandle^[1] (cloneHandle^[2] (wrap (7 : Nat)))).payload = some 7
     ∧ (dropHandle^[2 + 1] (cloneHandle^[2] (wrap (7 : Nat)))).destroyed = 1
     ∧ (dropHandle^[2 + 1] (cloneHandle^[2] (wrap (7 : Nat)))).payload = none) :=
  ⟨by decide, by decide, wrap_clone_drop_destroys_once 7 2 1 (by decide) (by decide)⟩

/-- C2: on a well-formed cell, `upgrade` returns `none` exactly when the
strong count has reached zero; otherwise it returns a new strong handle
(strong count incremented) to the still-live payload, never a handle to a
destroyed payload; and dropping a `WeakHandle` never destroys the payload. -/
theorem upgrade_no_dangling {T : Type} (s : RcState T) (h : RcWF s) :
    (s.strong = 0 → upgrade s = none)
    ∧ (s.strong ≠ 0 →
        upgrade s = some (cloneHandle s) ∧ s.payload.isSome = true
        ∧ (cloneHandle s).payload = s.payload
        ∧ (cloneHandle s).strong = s.strong + 1)
    ∧ (dropWeak s).payload = s.payload
    ∧ (dropWeak s).destroyed = s.destroyed
    ∧ (dropWeak s).strong = s.strong := by
  obtain ⟨h1, _, _⟩ := h
  refine ⟨?_, ?_, rfl, rfl, rfl⟩
  · intro hz
    unfold upgrade
    simp [hz]
  · intro hnz
    refine ⟨?_, h1.mpr (by omega), rfl, rfl⟩
    unfold upgrade
    cases hs : s.strong with
    | zero => omega
    | succ n => simp [cloneHandle, hs]

theorem upgrade_no_dangling_witness :
    RcWF { strong := 2, weak := 1, payload := some (5 : Nat), destroyed := 0 }
    ∧ (({ strong := 2, weak := 1, payload := some (5 : Nat), destroyed := 0 } :
          RcState Nat).strong = 0 →
        upgrade { strong := 2, weak := 1, payload := some (5 : Nat), destroyed := 0 } = none) :=
  ⟨by simp [RcWF],
   (upgrade_no_dangling { strong := 2, weak := 1, payload := some (5 : Nat), destroyed := 0 }
      (by simp [RcWF])).1⟩

/-- The kind-erased mutable properties of a native `cpShape` relevant to the
friction/elasticity setters (real-valued scalars modelled as rationals). -/
structure ShapeProps where
  friction : ℚ
  elasticity : ℚ
  deriving Repr, DecidableEq

/-- Modelled from the spec: the native kernel operation `cpShapeSetFriction`
is missing from this repository (it lives in the external kernel); per §6 it
is a plain mutation storing the scalar on the native resource. -/
def cpShapeSetFriction (s : ShapeProps) (v : ℚ) : ShapeProps :=
  { s with friction := v }

/-- Modelled from the spec: the native kernel operation `cpShapeSetElasticity`
is missing from this repository; per §6 it stores the scalar on the native
resource. -/
def cpShapeSetElasticity (s : ShapeProps) (v : ℚ) : ShapeProps :=
  { s with elasticity := v }

/-- `Shape::set_friction` (src/shape.rs:241-250): asserts
`friction >= 0.0` before the native call; the panic on a negative value is
modelled as `Except.error`, raised before any mutation. -/
def Shape.set_friction (s : ShapeProps) (v : ℚ) : Except String ShapeProps :=
  if v ≥ 0 then Except.ok (cpShapeSetFriction s v)
  else Except.error "Friction must be non-negative."

/-- `Shape::set_elasticity` (src/shape.rs:216-225): asserts
`elasticity >= 0.0` before the native call; the panic on a negative value is
modelled as `Except.error`, raised before any mutation. -/
def Shape.set_elasticity (s : ShapeProps) (v : ℚ) : Except String ShapeProps :=
  if v ≥ 0 then Except.ok (cpShapeSetElasticity s v)
  else Except.error "Elasticity must be non-negative."

/-- The shape state observed after a setter call: on a panic (`error`) the
shape keeps its previous state, since the panic fires before the native
mutation. -/
def afterSet (orig : ShapeProps) : Except String ShapeProps → ShapeProps
  | Except.ok s => s
  | Except.error _ => orig

/-- C3: a negative friction or elasticity value is rejected (the call fails)
and the previously stored value is unchanged; a non-negative value is stored. -/
theorem set_friction_elasticity_reject_negative (s : ShapeProps) (v : ℚ) :
    (v < 0 →
      (Shape.set_friction s v).isOk = false
      ∧ afterSet s (Shape.set_friction s v) = s
      ∧ (Shape.set_elasticity s v).isOk = false
      ∧ afterSet s (Shape.set_elasticity s v) = s)
    ∧ (0 ≤ v →
      Shape.set_friction s v = Except.ok { s with friction := v }
      ∧ Shape.set_elasticity s v = Except.ok { s with elasticity := v }) := by
  constructor
  · intro hv
    have hnot : ¬ v ≥ 0 := not_le.mpr hv
    simp [Shape.set_friction, Shape.set_elasticity, hnot, afterSet, Except.isOk, Except.toBool]
  · intro hv
    simp [Shape.set_friction, Shape.set_elasticity, hv, cpShapeSetFriction, cpShapeSetElasticity]

theorem set_friction_elasticity_reject_negative_witness :
    ((-1 : ℚ) < 0
     ∧ (Shape.set_friction ⟨(1 : ℚ), (2 : ℚ)⟩ (-1)).isOk = false
     ∧ afterSet ⟨(1 : ℚ), (2 : ℚ)⟩ (Shape.set_friction ⟨(1 : ℚ), (2 : ℚ)⟩ (-1)) = ⟨(1 : ℚ), (2 : ℚ)⟩)
    ∧ ((0 : ℚ) ≤ 3
       ∧ Shape.set_elasticity ⟨(1 : ℚ), (2 : ℚ)⟩ 3 = Except.ok ⟨(1 : ℚ), (3 : ℚ)⟩) :=
  ⟨⟨by norm_num,
    ((set_friction_elasticity_reject_negative ⟨1, 2⟩ (-1)).1 (by norm_num)).1,
    ((set_friction_elasticity_reject_negative ⟨1, 2⟩ (-1)).1 (by norm_num)).2.1⟩,
   ⟨by norm_num,
    ((set_friction_elasticity_reject_negative ⟨1, 2⟩ 3).2 (by norm_num)).2⟩⟩

/-- The `i as i32` cast in `PolyShape::vert` (src/shape.rs:433): a 64-bit
`usize` is truncated to its low 32 bits and reinterpreted as a signed
32-bit integer. -/
def usizeToI32 (i : Nat) : Int :=
  if i % 2 ^ 32 < 2 ^ 31 then ((i % 2 ^ 32 : Nat) : Int)
  else ((i % 2 ^ 32 : Nat) : Int) - 2 ^ 32

/-- The native data of a `cpPolyShape`: its stored vertex list (vertices as
pairs of rationals standing for the real coordinates). -/
structure PolyData where
  verts : List (ℚ × ℚ)
  deriving Repr, DecidableEq

/-- `PolyShape::count` (src/shape.rs:417-421): the native vertex count. -/
def PolyShape.count (p : PolyData) : Nat :=
  p.verts.length

/-- Modelled from the spec: the native `cpPolyShapeGetVert` is missing from
this repository; per §4.3 the index must be in range and an out-of-range
index is a caller error, rejected at the call, while an in-range index
returns the i-th vertex. The native signature takes a signed 32-bit index. -/
def cpPolyShapeGetVert (p : PolyData) (i : Int) : Except String (ℚ × ℚ) :=
  if h : 0 ≤ i ∧ i < (p.verts.length : Int) then
    Except.ok (p.verts.get ⟨i.toNat, by omega⟩)
  else Except.error "Index out of range."

/-- `PolyShape::vert` (src/shape.rs:431-435): forwards to the native vertex
accessor with the index cast `i as i32`; there is no Rust-side bounds check. -/
def PolyShape.vert (p : PolyData) (i : Nat) : Except String (ℚ × ℚ) :=
  cpPolyShapeGetVert p (usizeToI32 i)

/-- C6 counterexample: on a triangle (3 vertices), the out-of-range index
`2^32` is not rejected: the `usize as i32` cast truncates it to `0`, so
`vert` returns the vertex at index 0 instead of failing. -/
theorem vert_out_of_range_not_rejected :
    2 ^ 32 ≥ PolyShape.count { verts := [(0, 0), (1, 0), (0, 1)] }
    ∧ PolyShape.vert { verts := [(0, 0), (1, 0), (0, 1)] } (2 ^ 32) = Except.ok (0, 0) := by
  constructor
  · decide
  · rfl

/-- C6 amended: `vert(i)` bounds-checks the index only after truncating it
to a signed 32-bit integer: whenever the truncated index falls outside
`[0, n)` the call is rejected (returns an error, shape state untouched
since `vert` is read-only), and for `i < n` with `n ≤ 2^31` it returns the
i-th vertex. -/
theorem vert_bounds_after_truncation (p : PolyData) (i : Nat) :
    (∀ hi : i < PolyShape.count p, PolyShape.count p ≤ 2 ^ 31 →
        PolyShape.vert p i = Except.ok (p.verts.get ⟨i, hi⟩))
    ∧ (¬ (0 ≤ usizeToI32 i ∧ usizeToI32 i < (PolyShape.count p : Int)) →
        (PolyShape.vert p i).isOk = false) := by
  constructor
  · intro hi hc
    have hlt : i < 2 ^ 31 := by
      have := hi
      unfold PolyShape.count at this hc
      omega
    have hcast : usizeToI32 i = (i : Int) := by
      unfold usizeToI32
      rw [Nat.mod_eq_of_lt (by omega)]
      rw [if_pos hlt]
    unfold PolyShape.vert
    rw [hcast]
    unfold cpPolyShapeGetVert
    have hcond : (0 : Int) ≤ (i : Int) ∧ (i : Int) < (p.verts.length : Int) := by
      constructor
      · exact Int.ofNat_nonneg i
      · exact_mod_cast hi
    rw [dif_pos hcond]
    congr 1
  · intro hno
    unfold PolyShape.vert cpPolyShapeGetVert
    rw [dif_neg (by unfold PolyShape.count at hno; exact hno)]
    rfl

theorem vert_bounds_after_truncation_witness :
    ((1 : Nat) < PolyShape.count { verts := [(0, 0), (1, 0), (0, 1)] }
     ∧ PolyShape.vert { verts := [(0, 0), (1, 0), (0, 1)] } 1 = Except.ok (1, 0))
    ∧ (PolyShape.vert { verts := [(0, 0), (1, 0), (0, 1)] } 5).isOk = false :=
  ⟨⟨by decide,
    (vert_bounds_after_truncation { verts := [(0, 0), (1, 0), (0, 1)] } 1).1
      (by decide) (by decide)⟩,
   (vert_bounds_after_truncation { verts := [(0, 0), (1, 0), (0, 1)] } 5).2 (by decide)⟩

/-- A native-call record: the `Space` operations always invoke the native
kernel; the model logs every attempted invocation. -/
inductive NCall where
  | addBody (ptr : Nat)
  | removeBody (ptr : Nat)
  | addShape (ptr : Nat)
  | removeShape (ptr : Nat)
  deriving Repr, DecidableEq

/-- The native `cpSpace` as seen through the operations this layer uses: the
lists of natively registered body and shape pointers, plus the log of
attempted native calls. -/
structure NativeSpace where
  bodies : List Nat
  shapes : List Nat
  log : List NCall
  deriving Repr, DecidableEq

/-- Modelled from the spec: `cpSpaceAddBody` (external kernel, absent from
this repository) registers the body pointer with the native context;
re-adding an already-attached body is rejected by the native layer (§4.4).
The attempt is logged either way. -/
def cpSpaceAddBody (ns : NativeSpace) (p : Nat) : NativeSpace × Except String Unit :=
  let ns := { ns with log := ns.log ++ [NCall.addBody p] }
  if p ∈ ns.bodies then (ns, Except.error "body already added to this space")
  else ({ ns with bodies := ns.bodies ++ [p] }, Except.ok ())

/-- Modelled from the spec: `cpSpaceRemoveBody` unregisters the body pointer;
removing a body that is not registered signals an error upstream (§7). The
attempt is logged either way. -/
def cpSpaceRemoveBody (ns : NativeSpace) (p : Nat) : NativeSpace × Except String Unit :=
  let ns := { ns with log := ns.log ++ [NCall.removeBody p] }
  if p ∈ ns.bodies then ({ ns with bodies := ns.bodies.erase p }, Except.ok ())
  else (ns, Except.error "body is not in this space")

/-- Modelled from the spec: `cpSpaceAddShape`, as for bodies. -/
def cpSpaceAddShape (ns : NativeSpace) (p : Nat) : NativeSpace × Except String Unit :=
  let ns := { ns with log := ns.log ++ [NCall.addShape p] }
  if p ∈ ns.shapes then (ns, Except.error "shape already added to this space")
  else ({ ns with shapes := ns.shapes ++ [p] }, Except.ok ())

/-- Modelled from the spec: `cpSpaceRemoveShape`, as for bodies. -/
def cpSpaceRemoveShape (ns : NativeSpace) (p : Nat) : NativeSpace × Except String Unit :=
  let ns := { ns with log := ns.log ++ [NCall.removeShape p] }
  if p ∈ ns.shapes then ({ ns with shapes := ns.shapes.erase p }, Except.ok ())
  else (ns, Except.error "shape is not in this space")

/-- A `BodyHandle` value as `Space` sees it: `hid` is the identity of the
handle object itself (distinct clones carry distinct `hid`s), `ptr` is the
underlying native resource pointer (`body.read().as_ptr()`), shared by all
clones of the same body. -/
structure BodyRef where
  hid : Nat
  ptr : Nat
  deriving Repr, DecidableEq

/-- A `ShapeHandle` value as `Space` sees it, as for bodies. -/
structure ShapeRef where
  hid : Nat
  ptr : Nat
  deriving Repr, DecidableEq

/-- `Space` (src/space.rs:8-12): the native context pointer plus the two
membership collections of stored (cloned) handles. -/
structure Space where
  native : NativeSpace
  bodies : List BodyRef
  shapes : List ShapeRef
  deriving Repr, DecidableEq

/-- `Space::new` (src/space.rs:33-39): fresh native context, empty
membership collections. -/
def Space.new : Space :=
  { native := { bodies := [], shapes := [], log := [] }, bodies := [], shapes := [] }

/-- `Iterator::position` as used by `remove_body`/`remove_shape`
(src/space.rs:69, 79): index of the first element satisfying the
predicate. -/
def position {α : Type} (p : α → Bool) : List α → Option Nat
  | [] => none
  | x :: xs => if p x then some 0 else (position p xs).map (· + 1)

/-- `Space::add_body` (src/space.rs:53-58): push a clone of the handle onto
the membership collection, then register the body with the native context. -/
def Space.add_body (sp : Space) (b : BodyRef) : Space × Except String Unit :=
  let sp := { sp with bodies := sp.bodies ++ [b] }
  let res := cpSpaceAddBody sp.native b.ptr
  ({ sp with native := res.1 }, res.2)

/-- `Space::add_shape` (src/space.rs:60-65): as `add_body`. -/
def Space.add_shape (sp : Space) (s : ShapeRef) : Space × Except String Unit :=
  let sp := { sp with shapes := sp.shapes ++ [s] }
  let res := cpSpaceAddShape sp.native s.ptr
  ({ sp with native := res.1 }, res.2)

/-- `Space::remove_body` (src/space.rs:67-75): find the first stored handle
whose native pointer equals the argument handle's native pointer, remove it
from the collection when found, then attempt the native removal
unconditionally. -/
def Space.remove_body (sp : Space) (b : BodyRef) : Space × Except String Unit :=
  let pos := position (fun x => x.ptr == b.ptr) sp.bodies
  let sp :=
    match pos with
    | some i => { sp with bodies := sp.bodies.eraseIdx i }
    | none => sp
  let res := cpSpaceRemoveBody sp.native b.ptr
  ({ sp with native := res.1 }, res.2)

/-- `Space::remove_shape` (src/space.rs:77-85): as `remove_body`. -/
def Space.remove_shape (sp : Space) (s : ShapeRef) : Space × Except String Unit :=
  let pos := position (fun x => x.ptr == s.ptr) sp.shapes
  let sp :=
    match pos with
    | some i => { sp with shapes := sp.shapes.eraseIdx i }
    | none => sp
  let res := cpSpaceRemoveShape sp.native s.ptr
  ({ sp with native := res.1 }, res.2)

theorem position_lt_length {α : Type} (p : α → Bool) (l : List α) (i : Nat)
    (h : position p l = some i) : i < l.length := by
  induction l generalizing i with
  | nil => simp [position] at h
  | cons x xs ih =>
      unfold position at h
      by_cases hx : p x
      · rw [if_pos hx] at h
        injection h with h0
        simp only [List.length_cons]
        omega
      · rw [if_neg hx] at h
        obtain ⟨j, hj, hji⟩ := Option.map_eq_some'.mp h
        have := ih j hj
        simp only [List.length_cons]
        omega

theorem position_isSome_of_mem {α : Type} (p : α → Bool) (l : List α) (x : α)
    (hx : x ∈ l) (hp : p x = true) : (position p l).isSome = true := by
  induction l with
  | nil => simp at hx
  | cons y ys ih =>
      unfold position
      by_cases hy : p y
      · simp [hy]
      · rcases List.mem_cons.mp hx with rfl | hmem
        · exact absurd hp (by simpa using hy)
        · simp [hy, Option.isSome_map]
          have := ih hmem
          simpa using this

theorem position_eq_none_of_all {α : Type} (p : α → Bool) (l : List α)
    (h : ∀ x ∈ l, p x = false) : position p l = none := by
  induction l with
  | nil => rfl
  | cons y ys ih =>
      unfold position
      rw [if_neg (by simp [h y (List.mem_cons_self y ys)])]
      rw [ih (fun x hx => h x (List.mem_cons_of_mem y hx))]
      rfl

theorem eraseIdx_length_add_one {α : Type} :
    ∀ (l : List α) (i : Nat), i < l.length → (l.eraseIdx i).length + 1 = l.length := by
  intro l
  induction l with
  | nil => intro i h; simp at h
  | cons x xs ih =>
      intro i h
      cases i with
      | zero => simp [List.eraseIdx]
      | succ j =>
          simp only [List.eraseIdx, List.length_cons]
          have := ih j (by simp at h; omega)
          omega

theorem add_body_bodies (sp : Space) (b : BodyRef) :
    (sp.add_body b).1.bodies = sp.bodies ++ [b] := rfl

theorem add_shape_shapes (sp : Space) (s : ShapeRef) :
    (sp.add_shape s).1.shapes = sp.shapes ++ [s] := rfl

theorem remove_body_bodies (sp : Space) (b : BodyRef) :
    (sp.remove_body b).1.bodies =
      match position (fun x => x.ptr == b.ptr) sp.bodies with
      | some i => sp.bodies.eraseIdx i
      | none => sp.bodies := by
  unfold Space.remove_body
  cases position (fun x => x.ptr == b.ptr) sp.bodies <;> rfl

/-- C4 counterexample: adding the body with native pointer 1 twice leaves two
entries with equal native pointer in the membership collection (the clone is
pushed before the rejecting native call), so the collection does hold a
duplicate even though the native layer rejected the second add. -/
theorem add_body_duplicate_entry :
    (((Space.new.add_body ⟨0, 1⟩).1.add_body ⟨2, 1⟩).1.bodies.countP (fun x => x.ptr == 1)) = 2
    ∧ ((Space.new.add_body ⟨0, 1⟩).1.add_body ⟨2, 1⟩).2.isOk = false := by
  exact ⟨rfl, rfl⟩

/-- C4 amended: `add_body`/`add_shape` append the cloned handle to the
membership collection unconditionally, before the native call, so re-adding
a current member leaves a duplicate entry in the collection; only the native
registration rejects the duplicate (the native pointer is not registered
twice). -/
theorem add_member_appends_unconditionally (sp : Space) (b : BodyRef) (s : ShapeRef) :
    (sp.add_body b).1.bodies = sp.bodies ++ [b]
    ∧ (b.ptr ∈ sp.native.bodies →
        (sp.add_body b).2.isOk = false
        ∧ (sp.add_body b).1.native.bodies = sp.native.bodies)
    ∧ (b.ptr ∉ sp.native.bodies →
        (sp.add_body b).2 = Except.ok ()
        ∧ (sp.add_body b).1.native.bodies = sp.native.bodies ++ [b.ptr])
    ∧ (sp.add_shape s).1.shapes = sp.shapes ++ [s]
    ∧ (s.ptr ∈ sp.native.shapes →
        (sp.add_shape s).2.isOk = false
        ∧ (sp.add_shape s).1.native.shapes = sp.native.shapes)
    ∧ (s.ptr ∉ sp.native.shapes →
        (sp.add_shape s).2 = Except.ok ()
        ∧ (sp.add_shape s).1.native.shapes = sp.native.shapes ++ [s.ptr]) := by
  refine ⟨add_body_bodies sp b, ?_, ?_, add_shape_shapes sp s, ?_, ?_⟩
  · intro hmem
    constructor <;> simp [Space.add_body, cpSpaceAddBody, hmem, Except.isOk, Except.toBool]
  · intro hmem
    constructor <;> simp [Space.add_body, cpSpaceAddBody, hmem]
  · intro hmem
    constructor <;> simp [Space.add_shape, cpSpaceAddShape, hmem, Except.isOk, Except.toBool]
  · intro hmem
    constructor <;> simp [Space.add_shape, cpSpaceAddShape, hmem]

theorem add_member_appends_unconditionally_witness :
    ((1 : Nat) ∈ ((Space.new.add_body ⟨0, 1⟩).1).native.bodies
     ∧ (((Space.new.add_body ⟨0, 1⟩).1).add_body ⟨2, 1⟩).2.isOk = false)
    ∧ ((3 : Nat) ∉ ((Space.new.add_body ⟨0, 1⟩).1).native.bodies
       ∧ (((Space.new.add_body ⟨0, 1⟩).1).add_body ⟨4, 3⟩).2 = Except.ok ()) :=
  ⟨⟨by decide,
    ((add_member_appends_unconditionally (Space.new.add_body ⟨0, 1⟩).1 ⟨2, 1⟩ ⟨0, 0⟩).2.1
      (by decide)).1⟩,
   ⟨by decide,
    ((add_member_appends_unconditionally (Space.new.add_body ⟨0, 1⟩).1 ⟨4, 3⟩ ⟨0, 0⟩).2.2.1
      (by decide)).1⟩⟩

/-- C5: `add_body` followed by `remove_body` with any handle carrying the
same native pointer (possibly a distinct clone) restores the membership
count to its value before `add_body`; and `remove_body` depends only on the
argument handle's native pointer, never on the handle object identity. -/
theorem add_remove_restores_count (sp : Space) (b b2 : BodyRef) (hp : b.ptr = b2.ptr) :
    ((sp.add_body b).1.remove_body b2).1.bodies.length = sp.bodies.length
    ∧ sp.remove_body b = sp.remove_body b2 := by
  constructor
  · have hmem : b ∈ sp.bodies ++ [b] := List.mem_append_right _ (List.mem_singleton.mpr rfl)
    have hsome := position_isSome_of_mem (fun x => x.ptr == b2.ptr) (sp.bodies ++ [b]) b hmem
      (by simp [hp])
    obtain ⟨i, hi⟩ := Option.isSome_iff_exists.mp hsome
    have hlt := position_lt_length _ _ _ hi
    rw [remove_body_bodies, add_body_bodies, hi]
    have := eraseIdx_length_add_one (sp.bodies ++ [b]) i hlt
    simp only [List.length_append, List.length_singleton] at this ⊢
    omega
  · unfold Space.remove_body
    rw [hp]

theorem add_remove_restores_count_witness :
    (⟨0, 9⟩ : BodyRef).ptr = (⟨5, 9⟩ : BodyRef).ptr
    ∧ (((Space.new.add_body ⟨0, 9⟩).1.remove_body ⟨5, 9⟩).1.bodies.length
        = Space.new.bodies.length) :=
  ⟨rfl, (add_remove_restores_count Space.new ⟨0, 9⟩ ⟨5, 9⟩ rfl).1⟩

/-- C8: removing a body or shape whose native pointer matches no current
member leaves the membership collection unchanged, yet the native-side
removal call is still attempted (it is appended to the native call log, and
its error is propagated as the return value). -/
theorem remove_nonmember_noop_but_native_attempted (sp : Space) (b : BodyRef) (s : ShapeRef)
    (hb : ∀ x ∈ sp.bodies, x.ptr ≠ b.ptr) (hs : ∀ x ∈ sp.shapes, x.ptr ≠ s.ptr) :
    (sp.remove_body b).1.bodies = sp.bodies
    ∧ (sp.remove_body b).1.native.log = sp.native.log ++ [NCall.removeBody b.ptr]
    ∧ (sp.remove_shape s).1.shapes = sp.shapes
    ∧ (sp.remove_shape s).1.native.log = sp.native.log ++ [NCall.removeShape s.ptr] := by
  have hbn : position (fun x => x.ptr == b.ptr) sp.bodies = none :=
    position_eq_none_of_all _ _ (fun x hx => by simp [hb x hx])
  have hsn : position (fun x => x.ptr == s.ptr) sp.shapes = none :=
    position_eq_none_of_all _ _ (fun x hx => by simp [hs x hx])
  refine ⟨?_, ?_, ?_, ?_⟩
  · rw [remove_body_bodies, hbn]
  · unfold Space.remove_body cpSpaceRemoveBody
    rw [hbn]
    by_cases hmem : b.ptr ∈ sp.native.bodies <;> simp [hmem]
  · unfold Space.remove_shape
    rw [hsn]
  · unfold Space.remove_shape cpSpaceRemoveShape
    rw [hsn]
    by_cases hmem : s.ptr ∈ sp.native.shapes <;> simp [hmem]

theorem remove_nonmember_noop_but_native_attempted_witness :
    (∀ x ∈ ((Space.new.add_body ⟨0, 5⟩).1).bodies, x.ptr ≠ 7)
    ∧ (((Space.new.add_body ⟨0, 5⟩).1).remove_body ⟨1, 7⟩).1.bodies
        = ((Space.new.add_body ⟨0, 5⟩).1).bodies
    ∧ (((Space.new.add_body ⟨0, 5⟩).1).remove_body ⟨1, 7⟩).1.native.log
        = ((Space.new.add_body ⟨0, 5⟩).1).native.log ++ [NCall.removeBody 7] :=
  ⟨by decide,
   (remove_nonmember_noop_but_native_attempted (Space.new.add_body ⟨0, 5⟩).1 ⟨1, 7⟩ ⟨0, 0⟩
      (by decide) (by decide)).1,
   (remove_nonmember_noop_but_native_attempted (Space.new.add_body ⟨0, 5⟩).1 ⟨1, 7⟩ ⟨0, 0⟩
      (by decide) (by decide)).2.1⟩

/-- One member body viewed jointly with its reference-counted cell: `cell`
is the body's `Handle` block, `userHandles` counts the strong handles the
caller still holds, `memberCount` counts the entries for this body stored
in `Space::bodies` (each entry is a stored clone, src/space.rs:10, 54). -/
structure MemSys where
  cell : RcState Unit
  userHandles : Nat
  memberCount : Nat
  deriving Repr, DecidableEq

/-- Counting invariant tying the cell's strong count to the live handles:
every strong reference is either a caller-held handle or a clone stored in
the space's membership collection, and the payload is live exactly while
strong references remain. -/
def MemWF (s : MemSys) : Prop :=
  s.cell.strong = s.userHandles + s.memberCount
  ∧ (s.cell.payload.isSome ↔ 0 < s.cell.strong)

/-- `Space::add_body` (src/space.rs:53-58) viewed from one body: the space
stores `body.clone()`, incrementing the strong count. -/
def MemSys.addBody (s : MemSys) : MemSys :=
  { s with cell := cloneHandle s.cell, memberCount := s.memberCount + 1 }

/-- The caller dropping one of its own strong handles: the membership
collection is untouched. -/
def MemSys.userDrop (s : MemSys) : MemSys :=
  { s with cell := dropHandle s.cell, userHandles := s.userHandles - 1 }

/-- Modelled from the spec: `cpSpaceStep` (external kernel) touches every
registered member, so a step is safe (succeeds) only when each member's
payload is still live (§4.4, §8). -/
def MemSys.stepOk (s : MemSys) : Bool :=
  s.memberCount == 0 || s.cell.payload.isSome

theorem userDrop_iterate (s : MemSys) (k : Nat) (hwf : MemWF s)
    (hm : 0 < s.memberCount) (hk : k ≤ s.userHandles) :
    MemSys.userDrop^[k] s =
      { cell := { s.cell with strong := s.cell.strong - k },
        userHandles := s.userHandles - k, memberCount := s.memberCount } := by
  obtain ⟨h1, h2⟩ := hwf
  induction k with
  | zero => simp
  | succ n ih =>
      rw [Function.iterate_succ_apply', ih (by omega)]
      unfold MemSys.userDrop
      rw [dropHandle_of_two_le _ (by simp; omega)]
      have e1 : s.cell.strong - n - 1 = s.cell.strong - (n + 1) := by omega
      have e2 : s.userHandles - n - 1 = s.userHandles - (n + 1) := by omega
      simp [e1, e2]

/-- C9: a body that is a member of a `Space` is kept alive by the space's
stored clone: whatever number of its own handles the caller drops, the
membership count is unchanged, the strong count stays positive, the payload
is not destroyed, and stepping the space still succeeds. Storing a member
(`add_body`) is what adds that strong reference. -/
theorem member_keeps_body_alive (s : MemSys) (k : Nat) (hwf : MemWF s)
    (hm : 0 < s.memberCount) (hk : k ≤ s.userHandles) :
    (MemSys.userDrop^[k] s).memberCount = s.memberCount
    ∧ 0 < (MemSys.userDrop^[k] s).cell.strong
    ∧ (MemSys.userDrop^[k] s).cell.payload = s.cell.payload
    ∧ (MemSys.userDrop^[k] s).cell.payload.isSome = true
    ∧ (MemSys.userDrop^[k] s).stepOk = true
    ∧ (MemSys.addBody s).cell.strong = s.cell.strong + 1
    ∧ (MemSys.addBody s).memberCount = s.memberCount + 1 := by
  obtain ⟨h1, h2⟩ := hwf
  rw [userDrop_iterate s k ⟨h1, h2⟩ hm hk]
  have hpos : 0 < s.cell.strong - k := by omega
  have hsome : s.cell.payload.isSome = true := by
    exact (h2.mpr (by omega))
  refine ⟨rfl, by simpa using hpos, rfl, hsome, ?_, rfl, rfl⟩
  unfold MemSys.stepOk
  simp [hsome]

theorem member_keeps_body_alive_witness :
    MemWF { cell := { strong := 2, weak := 0, payload := some (), destroyed := 0 },
            userHandles := 1, memberCount := 1 }
    ∧ (MemSys.userDrop^[1]
        { cell := { strong := 2, weak := 0, payload := some (), destroyed := 0 },
          userHandles := 1, memberCount := 1 }).cell.payload.isSome = true
    ∧ (MemSys.userDrop^[1]
        { cell := { strong := 2, weak := 0, payload := some (), destroyed := 0 },
          userHandles := 1, memberCount := 1 }).stepOk = true :=
  ⟨by simp [MemWF],
   (member_keeps_body_alive
      { cell := { strong := 2, weak := 0, payload := some (), destroyed := 0 },
        userHandles := 1, memberCount := 1 } 1
      (by simp [MemWF]) (by simp) (by simp)).2.2.2.1,
   (member_keeps_body_alive
      { cell := { strong := 2, weak := 0, payload := some (), destroyed := 0 },
        userHandles := 1, memberCount := 1 } 1
      (by simp [MemWF]) (by simp) (by simp)).2.2.2.2.1⟩

/-- The native resource of a circle shape: its radius and local offset,
owned by the shape itself, independent of the body (src/shape.rs:314-317,
`cpCircleShapeNew` modelled from the spec as allocating an independent
resource recording radius and offset). -/
structure NCircleData where
  radius : ℚ
  offset : ℚ × ℚ
  deriving Repr, DecidableEq

/-- The pair built by `Shape::new_circle` (src/shape.rs:66-80): the shape's
own native resource plus the state of the body cell that the shape's
`_attached_body` weak handle points at. -/
structure CircleSys where
  circle : NCircleData
  bodyCell : RcState Unit
  deriving Repr, DecidableEq

/-- `Shape::new_circle` (src/shape.rs:66-80): transiently write-locks the
body handle to create the native circle, then stores only the weak
back-reference `body.downgrade()`; the body's strong count is unchanged. -/
def new_circle (bodyCell : RcState Unit) (radius : ℚ) (offset : ℚ × ℚ) : CircleSys :=
  { circle := { radius := radius, offset := offset }, bodyCell := downgrade bodyCell }

/-- `CircleShape::radius` (src/shape.rs:327-332): reads the shape's own
native resource only. -/
def CircleSys.radius (c : CircleSys) : ℚ :=
  c.circle.radius

/-- `CircleShape::offset` (src/shape.rs:320-325): reads the shape's own
native resource only. -/
def CircleSys.offset (c : CircleSys) : ℚ × ℚ :=
  c.circle.offset

/-- The caller dropping one strong handle to the body: only the body's cell
is affected; the shape's own native resource is untouched. -/
def CircleSys.dropBodyHandle (c : CircleSys) : CircleSys :=
  { c with bodyCell := dropHandle c.bodyCell }

theorem dropBodyHandle_iterate (c : CircleSys) (k : Nat) :
    CircleSys.dropBodyHandle^[k] c = { c with bodyCell := dropHandle^[k] c.bodyCell } := by
  induction k with
  | zero => simp
  | succ n ih =>
      rw [Function.iterate_succ_apply', ih, Function.iterate_succ_apply']
      rfl

/-- C10: a circle shape holds only a weak back-reference to its body.
Creating it leaves the body's strong count unchanged (the shape does not
keep the body alive); after the caller drops all strong handles (the body
never being in a space), the weak back-reference upgrades to `none`, while
the shape's own radius and offset accessors still work. -/
theorem shape_weak_backref_body_gone (cell : RcState Unit) (r : ℚ) (o : ℚ × ℚ) (n : Nat)
    (hs : cell.strong = n + 1) :
    (new_circle cell r o).bodyCell.strong = cell.strong
    ∧ upgrade ((CircleSys.dropBodyHandle^[n + 1] (new_circle cell r o)).bodyCell) = none
    ∧ (CircleSys.dropBodyHandle^[n + 1] (new_circle cell r o)).bodyCell.payload = none
    ∧ (CircleSys.dropBodyHandle^[n + 1] (new_circle cell r o)).radius = r
    ∧ (CircleSys.dropBodyHandle^[n + 1] (new_circle cell r o)).offset = o := by
  have hdrop : dropHandle^[n + 1] (new_circle cell r o).bodyCell =
      { (new_circle cell r o).bodyCell with
        strong := 0, payload := none,
        destroyed := (new_circle cell r o).bodyCell.destroyed + 1 } :=
    dropHandle_iterate_all _ n (by simp [new_circle, downgrade, hs])
  rw [dropBodyHandle_iterate]
  refine ⟨rfl, ?_, ?_, rfl, rfl⟩
  · simp only [hdrop]
    rfl
  · simp only [hdrop]

theorem shape_weak_backref_body_gone_witness :
    ({ strong := 1, weak := 0, payload := some (), destroyed := 0 } : RcState Unit).strong = 0 + 1
    ∧ (upgrade ((CircleSys.dropBodyHandle^[0 + 1]
          (new_circle { strong := 1, weak := 0, payload := some (), destroyed := 0 } 5 (1, 2))).bodyCell) = none
       ∧ (CircleSys.dropBodyHandle^[0 + 1]
            (new_circle { strong := 1, weak := 0, payload := some (), destroyed := 0 } 5 (1, 2))).radius = 5) :=
  ⟨rfl,
   (shape_weak_backref_body_gone
      { strong := 1, weak := 0, payload := some (), destroyed := 0 } 5 (1, 2) 0 rfl).2.1,
   (shape_weak_backref_body_gone
      { strong := 1, weak := 0, payload := some (), destroyed := 0 } 5 (1, 2) 0 rfl).2.2.2.1⟩

/-- A native rigid body as the shape mass setters touch it: its total mass. -/
structure NBody where
  mass : ℚ
  deriving Repr, DecidableEq

/-- A native collision shape as the mass setters touch it: the raw pointer
of the body it was created against (stored natively at construction,
src/shape.rs:66-80), its area, and its mass. -/
structure NShape where
  bodyPtr : Nat
  area : ℚ
  mass : ℚ
  deriving Repr, DecidableEq

/-- The native heap: bodies and shapes keyed by raw pointer. A body entry of
`none` is a destroyed native body (`cpBodyDestroy` ran in `Body`'s `Drop`
when the last strong handle was dropped, src/body.rs:38-44). -/
structure NHeap where
  bodies : List (Nat × Option NBody)
  shapes : List (Nat × NShape)
  deriving Repr, DecidableEq

/-- Read the record stored at a raw-pointer key. -/
def lookupPtr {B : Type} (p : Nat) : List (Nat × B) → Option B
  | [] => none
  | e :: t => if e.1 = p then some e.2 else lookupPtr p t

/-- Overwrite the record stored at a raw-pointer key. -/
def setPtr {B : Type} (p : Nat) (v : B) (l : List (Nat × B)) : List (Nat × B) :=
  l.map (fun e => if e.1 = p then (e.1, v) else e)

theorem lookupPtr_setPtr {B : Type} (l : List (Nat × B)) (p : Nat) (v0 v : B)
    (h : lookupPtr p l = some v0) : lookupPtr p (setPtr p v l) = some v := by
  induction l with
  | nil => simp [lookupPtr] at h
  | cons e t ih =>
      by_cases hk : e.1 = p
      · simp [setPtr, lookupPtr, hk]
      · simp only [lookupPtr, if_neg hk] at h
        simp only [setPtr, List.map_cons, if_neg hk, lookupPtr]
        exact ih h

/-- Total mass of a body recomputed from its attachments: the sum of the
masses of all shapes created against this body pointer. -/
def bodyTotalMass (shapes : List (Nat × NShape)) (bp : Nat) : ℚ :=
  ((shapes.filter (fun e => e.2.bodyPtr = bp)).map (fun e => e.2.mass)).sum

/-- Modelled from the spec: the native `cpShapeSetMass` (external kernel,
absent from this repository) stores the mass on the shape and signals the
owning body — reached through the shape's natively stored raw body
pointer — to recompute its total mass from its attachments (§4.3); reaching
through the pointer of an already-destroyed body is a resource-identity
violation (§7), modelled as the error outcome. -/
def cpShapeSetMass (h : NHeap) (p : Nat) (m : ℚ) : Except String NHeap :=
  match lookupPtr p h.shapes with
  | none => Except.error "invalid shape pointer"
  | some sh =>
    let shapes2 := setPtr p { sh with mass := m } h.shapes
    match lookupPtr sh.bodyPtr h.bodies with
    | some (some _) =>
        Except.ok
          { bodies := setPtr sh.bodyPtr
              (some { mass := bodyTotalMass shapes2 sh.bodyPtr }) h.bodies,
            shapes := shapes2 }
    | _ => Except.error "use of destroyed native pointer"

/-- Modelled from the spec: `cpShapeSetDensity` sets the shape's mass
computed from its area (§4.3: density-driven mass recompute), with the same
side effect on the owning body. -/
def cpShapeSetDensity (h : NHeap) (p : Nat) (d : ℚ) : Except String NHeap :=
  match lookupPtr p h.shapes with
  | none => Except.error "invalid shape pointer"
  | some sh => cpShapeSetMass h p (d * sh.area)

/-- The Rust `Shape` value as the mass setters see it: its native pointer
plus the target of its `_attached_body` weak back-reference — which
`set_density`/`set_mass` never consult. -/
structure RShape where
  ptr : Nat
  attachedBodyPtr : Nat
  deriving Repr, DecidableEq

/-- `Shape::set_density` (src/shape.rs:196-200): forwards directly to the
native call on the shape's own pointer; the weak back-reference is not
checked first. -/
def Shape.set_density (h : NHeap) (s : RShape) (d : ℚ) : Except String NHeap :=
  cpShapeSetDensity h s.ptr d

/-- `Shape::set_mass` (src/shape.rs:261-265): forwards directly to the
native call on the shape's own pointer; the weak back-reference is not
checked first. -/
def Shape.set_mass (h : NHeap) (s : RShape) (m : ℚ) : Except String NHeap :=
  cpShapeSetMass h s.ptr m

/-- The heap after a successful mass set: the shape at `p` stores mass `m`,
and the owning body's slot stores the total mass recomputed over the
updated shapes. -/
def massRecomputed (h : NHeap) (p : Nat) (sh : NShape) (m : ℚ) : NHeap :=
  { bodies :=
      setPtr sh.bodyPtr
        (some { mass := bodyTotalMass (setPtr p { sh with mass := m } h.shapes) sh.bodyPtr })
        h.bodies,
    shapes := setPtr p { sh with mass := m } h.shapes }

/-- A concrete heap whose only body (pointer 1) is destroyed, with one shape
(pointer 2) created against it. -/
def deadOwnerHeap : NHeap :=
  { bodies := [(1, none)], shapes := [(2, { bodyPtr := 1, area := 4, mass := 1 })] }

/-- A concrete heap whose only body (pointer 1) is alive. -/
def aliveOwnerHeap : NHeap :=
  { bodies := [(1, some { mass := 2 })],
    shapes := [(2, { bodyPtr := 1, area := 4, mass := 1 })] }

/-- The Rust shape value over pointer 2, weakly attached to body 1. -/
def theShape : RShape :=
  { ptr := 2, attachedBodyPtr := 1 }

/-- C7 counterexample: on a heap whose native body at pointer 1 is already
destroyed, `set_density` and `set_mass` on a shape created against that body
do not take a recoverable "no-op, owner gone" path: the setters never
consult the weak back-reference and reach through the destroyed native body
pointer. -/
theorem set_density_dead_owner_not_noop :
    lookupPtr 1 deadOwnerHeap.bodies = some none
    ∧ Shape.set_density deadOwnerHeap theShape 3
      = Except.error "use of destroyed native pointer"
    ∧ Shape.set_mass deadOwnerHeap theShape 3
      = Except.error "use of destroyed native pointer" := by
  exact ⟨rfl, rfl, rfl⟩

/-- C7 amended: `set_density`/`set_mass` never consult the weak
back-reference. When the owning native body is still alive, the call stores
the (density-derived) mass on the shape and recomputes the owning body total
mass from its attachments; when the owning body has been destroyed, the call
is not a recoverable no-op: it dereferences the destroyed native body
pointer (a resource-identity violation). -/
theorem set_density_mass_owner_liveness (h : NHeap) (s : RShape) (d m : ℚ) (sh : NShape)
    (hsh : lookupPtr s.ptr h.shapes = some sh) :
    (lookupPtr sh.bodyPtr h.bodies = some none →
        Shape.set_density h s d = Except.error "use of destroyed native pointer"
        ∧ Shape.set_mass h s m = Except.error "use of destroyed native pointer")
    ∧ (∀ b : NBody, lookupPtr sh.bodyPtr h.bodies = some (some b) →
        (∃ h2 : NHeap, Shape.set_mass h s m = Except.ok h2
            ∧ lookupPtr s.ptr h2.shapes = some { sh with mass := m }
            ∧ lookupPtr sh.bodyPtr h2.bodies
                = some (some { mass := bodyTotalMass h2.shapes sh.bodyPtr }))
        ∧ (∃ h3 : NHeap, Shape.set_density h s d = Except.ok h3
            ∧ lookupPtr s.ptr h3.shapes = some { sh with mass := d * sh.area })) := by
  constructor
  · intro hdead
    constructor
    · simp [Shape.set_density, cpShapeSetDensity, cpShapeSetMass, hsh, hdead]
    · simp [Shape.set_mass, cpShapeSetMass, hsh, hdead]
  · intro b hb
    have hmass : ∀ mm : ℚ, Shape.set_mass h s mm = Except.ok (massRecomputed h s.ptr sh mm) := by
      intro mm
      simp [Shape.set_mass, cpShapeSetMass, hsh, hb, massRecomputed]
    have hden : Shape.set_density h s d = Except.ok (massRecomputed h s.ptr sh (d * sh.area)) := by
      rw [Shape.set_density, cpShapeSetDensity, hsh]
      exact hmass (d * sh.area)
    constructor
    · exact ⟨massRecomputed h s.ptr sh m, hmass m,
        lookupPtr_setPtr h.shapes s.ptr sh _ hsh,
        lookupPtr_setPtr h.bodies sh.bodyPtr (some b) _ hb⟩
    · exact ⟨massRecomputed h s.ptr sh (d * sh.area), hden,
        lookupPtr_setPtr h.shapes s.ptr sh _ hsh⟩

theorem set_density_mass_owner_liveness_witness :
    lookupPtr 2 aliveOwnerHeap.shapes = some { bodyPtr := 1, area := 4, mass := 1 }
    ∧ (∃ h2 : NHeap, Shape.set_mass aliveOwnerHeap theShape 5 = Except.ok h2
        ∧ lookupPtr 2 h2.shapes = some { bodyPtr := 1, area := 4, mass := 5 }
        ∧ lookupPtr 1 h2.bodies = some (some { mass := bodyTotalMass h2.shapes 1 })) :=
  ⟨by decide,
   ((set_density_mass_owner_liveness aliveOwnerHeap theShape 3 5
      { bodyPtr := 1, area := 4, mass := 1 } (by decide)).2
      { mass := 2 } (by decide)).1⟩

end Chipmunk
